import Mathlib

/-!
Verification of the XHS_RS_TOOLS login & signature-capture orchestrator
(`scripts/xhs_playwright/`): a shallow embedding of the Python source into
Lean 4, with theorems settling the spec's claims about the Signature
Correlator, the credential/signature store, the QR pipeline, the login
completion detector and the channel traversal driver.

Python strings are modelled as Lean `String`s, dicts as association lists
(first-match lookup, in-place overwrite), and fallible/raising operations as
`Except String` computations; `try/except` blocks catch the `.error` case.
-/

/-! ## Python string primitives (character-level models of the str methods
the source uses: `in`, `split(sep)`, `endswith`, slicing `[:-n]`,
`startswith`, `len`) -/

/-- Model of Python `sep.join`-free `str.split(sep)` on a single-character
separator, at the character-list level: `"".split(c) = [""]`,
`".x".split('.') = ["", "x"]`. -/
def pySplitList (sep : Char) : List Char → List (List Char)
  | [] => [[]]
  | c :: cs =>
    if c = sep then [] :: pySplitList sep cs
    else
      match pySplitList sep cs with
      | [] => [[c]]
      | g :: gs => (c :: g) :: gs

/-- Python `s.split(sep)` for a one-character separator. -/
def pySplit (sep : Char) (s : String) : List String :=
  (pySplitList sep s.toList).map List.asString

/-- Python `c in s` for a single character. -/
def pyHasChar (s : String) (c : Char) : Bool :=
  s.toList.contains c

/-- Membership of one character list inside another (contiguous). -/
def listHasSub (needle : List Char) : List Char → Bool
  | [] => needle.isEmpty
  | c :: cs => needle.isPrefixOf (c :: cs) || listHasSub needle cs

/-- Python `needle in hay` for strings (contiguous substring test). -/
def strIn (needle hay : String) : Bool :=
  listHasSub needle.toList hay.toList

/-- Python `s.endswith(suf)`. -/
def pyEndsWith (s suf : String) : Bool :=
  suf.toList.isSuffixOf s.toList

/-- Python `s[:-n]` for `n ≤ len(s)` (drop the last `n` characters). -/
def pyDropRight (s : String) (n : Nat) : String :=
  (s.toList.take (s.toList.length - n)).asString

/-- Python `s.startswith(pre)`. -/
def pyStartsWith (s pre : String) : Bool :=
  pre.toList.isPrefixOf s.toList

/-- Python `len(s)` (number of characters). -/
def pyLen (s : String) : Nat :=
  s.toList.length

/-! ## Python dict model: association lists with first-match lookup and
in-place overwrite (Python 3.7+ dicts keep insertion order; assignment to an
existing key overwrites in place, assignment to a fresh key appends) -/

/-- Python `d.get(k)` as an `Option` (first matching key). -/
def dictGet (m : List (String × α)) (k : String) : Option α :=
  (m.find? (fun p => p.1 = k)).map (·.2)

/-- Python `d.get(k, default)`. -/
def dictGetD (m : List (String × α)) (k : String) (d : α) : α :=
  (dictGet m k).getD d

/-- Python `d[k] = v`: overwrite the existing entry in place, else append. -/
def dictSet (k : String) (v : α) : List (String × α) → List (String × α)
  | [] => [(k, v)]
  | (k', v') :: rest =>
    if k' = k then (k, v) :: rest else (k', v') :: dictSet k v rest

/-- Python `k in d`. -/
def dictHas (m : List (String × α)) (k : String) : Bool :=
  (dictGet m k).isSome

/-! ## config.py: the constants the claims touch -/

/-- `config.ENDPOINT_PATTERNS` — endpoint URL patterns for signature
capture, in source (insertion) order. -/
def ENDPOINT_PATTERNS : List (String × String) :=
  [("user_me", "/api/sns/web/v2/user/me"),
   ("search_trending", "/api/sns/web/v1/search/querytrending"),
   ("home_feed", "/api/sns/web/v1/homefeed"),
   ("notification_mentions", "/api/sns/web/v1/you/mentions"),
   ("notification_connections", "/api/sns/web/v1/you/connections"),
   ("note_page", "/api/sns/web/v2/comment/page")]

/-- `config.CHANNEL_MAP` — feed tab name → API category discriminator. -/
def CHANNEL_MAP : List (String × String) :=
  [("推荐", "homefeed_recommend"),
   ("穿搭", "homefeed.fashion_v3"),
   ("美食", "homefeed.food_v3"),
   ("彩妆", "homefeed.cosmetics_v3"),
   ("影视", "homefeed.movie_and_tv_v3"),
   ("职场", "homefeed.career_v3"),
   ("情感", "homefeed.love_v3"),
   ("家居", "homefeed.household_product_v3"),
   ("游戏", "homefeed.gaming_v3"),
   ("旅行", "homefeed.travel_v3"),
   ("健身", "homefeed.fitness_v3")]

/-- `config.FEED_CHANNELS` — the fixed ordered traversal list. -/
def FEED_CHANNELS : List String :=
  ["推荐", "穿搭", "美食", "彩妆", "影视",
   "职场", "情感", "家居", "游戏", "旅行", "健身"]

/-- `config.QR_MAX_ATTEMPTS`. -/
def QR_MAX_ATTEMPTS : Nat := 30

/-- `config.QR_POLL_INTERVAL_MS`. -/
def QR_POLL_INTERVAL_MS : Nat := 500

/-- `config.LOGIN_TIMEOUT_SECONDS`. -/
def LOGIN_TIMEOUT_SECONDS : Nat := 180

/-! ## signature.py: the Signature Correlator (`SignatureCapture`) -/

/-- An observed outgoing browser request, as seen by
`SignatureCapture.create_request_handler.handle_request`. -/
structure Request where
  url : String
  headers : List (String × String)
  method : String
  post_data : Option String
deriving DecidableEq, Repr

/-- The per-endpoint signature dict built at signature.py:93-101. -/
structure SigBundle where
  x_s : String
  x_t : String
  x_s_common : String
  x_b3_traceid : String
  x_xray_traceid : String
  method : String
  post_body : Option String
deriving DecidableEq, Repr

/-- Mutable state of a `SignatureCapture` instance: the longest-seen
`x-s-common` value and the endpoint → bundle dict. -/
structure CaptureState where
  x_s_common : String
  signatures : List (String × SigBundle)
deriving DecidableEq, Repr

/-- `SignatureCapture.__init__`: empty common header, empty signature map. -/
def initCaptureState : CaptureState :=
  { x_s_common := "", signatures := [] }

/-- The category → storage-endpoint derivation of signature.py:67-87,
applied to a truthy `category` string read from the request body:
`"homefeed_recommend"` is mapped directly; a dotted category takes its
second dot-segment, strips a trailing `"_v3"`, and otherwise falls back to
the segment's first underscore-delimited piece; an undotted category is
appended wholesale. -/
def deriveStorageEndpoint (category : String) : String :=
  if category = "homefeed_recommend" then "home_feed_recommend"
  else if pyHasChar category '.' then
    let parts := pySplit '.' category
    let raw_cat := (parts.getD 1 "")
    let raw_cat :=
      if pyEndsWith raw_cat "_v3" then pyDropRight raw_cat 3
      else (pySplit '_' raw_cat).headD ""
    "home_feed_" ++ raw_cat
  else "home_feed_" ++ category

/-- Outcome of `json.loads(post_data)` followed by `body.get("category")`
with Python truthiness, abstracted as an oracle: `.error` models the
`except` branch (body not decodable as JSON), `.ok none` a decodable body
whose `category` field is absent or falsy, and `.ok (some c)` a truthy
string category `c` (so `c ≠ ""`). -/
def JsonOracle : Type := String → Except Unit (Option String)

/-- The `storage_endpoint` computed at signature.py:56-91 for a matched
endpoint: only `"home_feed"` with a truthy POST body is re-keyed by the
body's category discriminator; a parse failure or a missing/falsy category
leaves the generic endpoint key. -/
def storageEndpointOf (oracle : JsonOracle) (endpoint : String)
    (post_data : Option String) : String :=
  if endpoint = "home_feed" then
    match post_data with
    | none => endpoint
    | some pd =>
      if pd = "" then endpoint
      else
        match oracle pd with
        | .error _ => endpoint
        | .ok none => endpoint
        | .ok (some category) =>
          if category = "" then endpoint else deriveStorageEndpoint category
  else endpoint

/-- The signature dict stored at signature.py:93-101. -/
def mkBundle (r : Request) (post_data : Option String) : SigBundle :=
  { x_s := dictGetD r.headers "x-s" ""
    x_t := dictGetD r.headers "x-t" ""
    x_s_common := dictGetD r.headers "x-s-common" ""
    x_b3_traceid := dictGetD r.headers "x-b3-traceid" ""
    x_xray_traceid := dictGetD r.headers "x-xray-traceid" ""
    method := r.method
    post_body := post_data }

/-- The first `(endpoint, pattern)` of `ENDPOINT_PATTERNS` with
`pattern in url and 'x-s' in headers` (the loop at signature.py:50-51,
which `break`s after its first hit). -/
def matchEndpoint (r : Request) : Option String :=
  (ENDPOINT_PATTERNS.find?
      (fun ep => strIn ep.2 r.url && dictHas r.headers "x-s")).map (·.1)

/-- `request.post_data if request.method == "POST" else None`
(signature.py:53). -/
def effPostData (r : Request) : Option String :=
  if r.method = "POST" then r.post_data else none

/-- The key under which `handle_request` stores a bundle for request `r`,
when it stores one. -/
def observedKey (oracle : JsonOracle) (r : Request) : Option String :=
  (matchEndpoint r).map (fun ep => storageEndpointOf oracle ep (effPostData r))

/-- The `x_s_common` update at signature.py:44-47: replaced only when the
observed header is strictly longer. -/
def stepXSCommon (cur : String) (r : Request) : String :=
  match dictGet r.headers "x-s-common" with
  | some v => if pyLen v > pyLen cur then v else cur
  | none => cur

/-- `SignatureCapture.create_request_handler.handle_request`
(signature.py:40-105): update the longest-seen `x-s-common`, then store at
most one bundle, keyed by the derived storage endpoint of the first
matching pattern. -/
def handle_request (oracle : JsonOracle) (st : CaptureState) (r : Request) :
    CaptureState :=
  let xs := stepXSCommon st.x_s_common r
  match matchEndpoint r with
  | none => { st with x_s_common := xs }
  | some ep =>
    let pd := effPostData r
    let key := storageEndpointOf oracle ep pd
    { x_s_common := xs, signatures := dictSet key (mkBundle r pd) st.signatures }

/-! ## storage.py: the durable store, modelled as in-memory collections -/

/-- A document of the `credentials` collection. -/
structure CredDoc where
  user_id : String
  cookies : List (String × String)
  x_s_common : String
  is_valid : Bool
deriving DecidableEq, Repr

/-- The four cookie names joined at storage.py:30. -/
def USER_ID_COOKIE_KEYS : List String := ["a1", "webId", "gid", "web_session"]

/-- `"".join(cookies.get(k, "") for k in ["a1", "webId", "gid",
"web_session"])` (storage.py:30). -/
def userIdOf (cookies : List (String × String)) : String :=
  String.join (USER_ID_COOKIE_KEYS.map (fun k => dictGetD cookies k ""))

/-- The document inserted by `save_credentials` (storage.py:33-40). -/
def mkCredDoc (cookies : List (String × String)) (x_s_common : String) :
    CredDoc :=
  { user_id := userIdOf cookies, cookies := cookies,
    x_s_common := x_s_common, is_valid := true }

/-- `storage.save_credentials` (storage.py:10-45): mark every existing
document invalid (`update_many({}, {"$set": {"is_valid": False}})`), then
insert the new valid document; returns the derived user id. -/
def save_credentials (store : List CredDoc)
    (cookies : List (String × String)) (x_s_common : String) :
    List CredDoc × String :=
  (store.map (fun d => { d with is_valid := false }) ++
     [mkCredDoc cookies x_s_common],
   userIdOf cookies)

/-- A document of the `api_signatures` collection. -/
structure SigDoc where
  endpoint : String
  x_s : String
  x_t : String
  x_s_common : String
  x_b3_traceid : String
  x_xray_traceid : String
  method : String
  post_body : Option String
  is_valid : Bool
deriving DecidableEq, Repr

/-- The `$set` document of `storage.save_signature` (storage.py:61-78). -/
def mkSigDoc (endpoint : String) (b : SigBundle) : SigDoc :=
  { endpoint := endpoint, x_s := b.x_s, x_t := b.x_t,
    x_s_common := b.x_s_common, x_b3_traceid := b.x_b3_traceid,
    x_xray_traceid := b.x_xray_traceid, method := b.method,
    post_body := b.post_body, is_valid := true }

/-- `update_one({"endpoint": endpoint}, {"$set": ...}, upsert=True)`:
replace the first document whose `endpoint` matches, else append. -/
def storeUpsert (doc : SigDoc) : List SigDoc → List SigDoc
  | [] => [doc]
  | d :: rest =>
    if d.endpoint = doc.endpoint then doc :: rest
    else d :: storeUpsert doc rest

/-- `storage.save_signature` (storage.py:48-80) applied to a store. -/
def save_signature (store : List SigDoc) (endpoint : String) (b : SigBundle) :
    List SigDoc :=
  storeUpsert (mkSigDoc endpoint b) store

/-- `SignatureCapture.save_all_signatures` (signature.py:117-128): upsert
every captured bundle into the store, returning the store and the list of
saved endpoint names. -/
def save_all_signatures (st : CaptureState) (store : List SigDoc) :
    List SigDoc × List String :=
  st.signatures.foldl
    (fun acc kv => (save_signature acc.1 kv.1 kv.2, acc.2 ++ [kv.1]))
    (store, [])

/-! ## qr_code.py: QR decoding pipeline -/

/-- The availability flags and fallible library calls `base64_to_ascii`
depends on. Bytes and image handles are opaque `String` tokens; each call
returns `.error msg` when the Python call would raise. -/
structure QrBackends where
  hasPyzbar : Bool
  hasQrcode : Bool
  b64decode : String → Except String String
  imgOpen : String → Except String String
  zbarDecode : String → Except String (List String)
  utf8decode : String → Except String String
  qrMatrix : String → Except String (List (List Bool))

/-- `qr_code._simple_ascii_placeholder` (qr_code.py:85-94). -/
def simple_ascii_placeholder : String :=
  "\n╔═══════════════════════════════╗\n║                               ║\n║   请使用小红书APP扫描二维码    ║\n║   (在浏览器窗口中查看)         ║\n║                               ║\n╚═══════════════════════════════╝\n"

/-- The module-matrix → block-character rendering of qr_code.py:68-75. -/
def renderGrid (m : List (List Bool)) : String :=
  String.intercalate "\n"
    (m.map (fun row => String.join (row.map (fun cell => if cell then "█" else " "))))

/-- qr_code.py:55-75: with a non-empty pyzbar result in hand, regenerate
the QR as a glyph grid when the `qrcode` backend is present (decoding the
payload may raise), else fall through to the placeholder. -/
def qrRegenerate (env : QrBackends) (content0 : String) :
    Except String String :=
  if env.hasQrcode then
    match env.utf8decode content0 with
    | .error e => .error e
    | .ok qr_content =>
      match env.qrMatrix qr_content with
      | .error e => .error e
      | .ok m => .ok (renderGrid m)
  else .ok simple_ascii_placeholder

/-- qr_code.py:52-78: open the image and run pyzbar on it; an empty decode
result falls through to the placeholder. -/
def qrDecodeImage (env : QrBackends) (img_data : String) :
    Except String String :=
  if env.hasPyzbar then
    match env.imgOpen img_data with
    | .error e => .error e
    | .ok img =>
      match env.zbarDecode img with
      | .error e => .error e
      | .ok [] => .ok simple_ascii_placeholder
      | .ok (content0 :: _) => qrRegenerate env content0
  else .ok simple_ascii_placeholder

/-- The body of the `try` block of `base64_to_ascii` (qr_code.py:46-78):
decode base64, then decode/re-render, else fall through to the placeholder;
`.error` is an uncaught raise inside the block. -/
def qrTryBlock (env : QrBackends) (d : String) : Except String String :=
  match env.b64decode d with
  | .error e => .error e
  | .ok img_data => qrDecodeImage env img_data

/-- `qr_code.base64_to_ascii` (qr_code.py:26-82). The result is
`Except.ok` of the displayed string; a `.error` result would model an
exception escaping the function. -/
def base64_to_ascii (env : QrBackends) (base64_data : String) :
    Except String String :=
  if base64_data = "" then .ok "[无法获取二维码]"
  else
    let d := if pyHasChar base64_data ',' then
               (pySplit ',' base64_data).getD 1 ""
             else base64_data
    match qrTryBlock env d with
    | .ok s => .ok s
    | .error _ => .ok simple_ascii_placeholder

/-- What one attempt of `extract_from_page` observes from the page:
whether the locator wait / attribute read raised, and otherwise the `src`
attribute value (`none` models a `None` attribute). -/
structure AttemptObs where
  raises : Bool
  exnMsg : String
  src : Option String
deriving Repr

/-- The result dict of `extract_from_page` (qr_code.py:110-115), plus
instrumentation for the claims: the number of attempts made and the total
milliseconds spent in inter-attempt `wait_for_timeout` calls. -/
structure ExtractResult where
  success : Bool
  base64 : String
  ascii : String
  error : Option String
  attempts : Nat
  waitMs : Nat
deriving Repr

/-- The validation of qr_code.py:129: `src` truthy, a `data:image` URI,
and strictly longer than 2000 characters. -/
def validSrc (s : String) : Bool :=
  !(s = "") && pyStartsWith s "data:image" && pyLen s > 2000

/-- Outcome of one attempt body of `extract_from_page`
(qr_code.py:118-138): a raise in the locator wait / attribute read is
`failRaise`; a `src` that passes the validation of qr_code.py:129 produces
`success` with the rendered ascii (`base64_to_ascii` raising — which
`base64_to_ascii_total` shows cannot happen — would be caught by the
attempt's `except` as a raise); any other `src` is rejected silently. -/
inductive AttemptRes where
  | success (b64 ascii : String)
  | failRaise (msg : String)
  | failSilent
deriving DecidableEq, Repr

/-- The per-attempt outcome of `extract_from_page`. -/
def attemptRes (qenv : QrBackends) (o : AttemptObs) : AttemptRes :=
  if o.raises then .failRaise o.exnMsg
  else
    match o.src with
    | some s =>
      if validSrc s then
        match base64_to_ascii qenv s with
        | .ok a => .success s a
        | .error m => .failRaise m
      else .failSilent
    | none => .failSilent

/-- The attempt loop of `extract_from_page` (qr_code.py:117-148):
`remaining` counts attempts left (so `remaining > 0` after consuming the
current attempt is Python's `attempt < QR_MAX_ATTEMPTS - 1`), `idx` indexes
the observation environment, `att`/`w` accumulate the attempt count and the
total inter-attempt wait milliseconds. A successful attempt returns
immediately; a failed one waits one poll interval and retries unless it was
the last, in which case only a raise records an error string. -/
def extractGo (env : Nat → AttemptObs) (qenv : QrBackends) :
    Nat → Nat → Nat → Nat → ExtractResult
  | 0, _, att, w =>
    { success := false, base64 := "", ascii := "", error := none,
      attempts := att, waitMs := w }
  | remaining + 1, idx, att, w =>
    match attemptRes qenv (env idx) with
    | .success s a =>
      { success := true, base64 := s, ascii := a, error := none,
        attempts := att + 1, waitMs := w }
    | .failRaise m =>
      if remaining > 0 then
        extractGo env qenv remaining (idx + 1) (att + 1)
          (w + QR_POLL_INTERVAL_MS)
      else
        { success := false, base64 := "", ascii := "", error := some m,
          attempts := att + 1, waitMs := w }
    | .failSilent =>
      if remaining > 0 then
        extractGo env qenv remaining (idx + 1) (att + 1)
          (w + QR_POLL_INTERVAL_MS)
      else
        { success := false, base64 := "", ascii := "", error := none,
          attempts := att + 1, waitMs := w }

/-- `qr_code.extract_from_page` (qr_code.py:97-150). -/
def extract_from_page (env : Nat → AttemptObs) (qenv : QrBackends) :
    ExtractResult :=
  extractGo env qenv QR_MAX_ATTEMPTS 0 0 0

/-! ## browser.py: login completion detector -/

/-- What one poll tick of `wait_for_login_complete` observes: whether the
`wait_for_timeout` raised with the page closed, the current URL, the avatar
locator's state (`count()`, `is_visible()`, or the check raising), and the
context cookies. -/
structure PollObs where
  pageClosed : Bool
  url : String
  avatarRaises : Bool
  avatarCount : Nat
  avatarVisible : Bool
  cookies : List (String × String)
deriving Repr

/-- The result dict of `wait_for_login_complete` (browser.py:162-167),
plus the total milliseconds spent blocked in `wait_for_timeout` calls. -/
structure LoginResult where
  success : Bool
  cookies : List (String × String)
  status : String
  elapsedMs : Nat
deriving Repr

/-- `next((c['value'] for c in cookies if c['name'] == 'web_session'),
None)` (browser.py:171/209). -/
def webSessionOf (cookies : List (String × String)) : Option String :=
  (cookies.find? (fun c => c.1 = "web_session")).map (·.2)

/-- Poll interval of browser.py:175 (milliseconds). -/
def POLL_INTERVAL_MS : Nat := 2000

/-- `max_polls = (timeout * 1000) // poll_interval` (browser.py:176). -/
def maxPolls (timeout : Nat) : Nat := timeout * 1000 / POLL_INTERVAL_MS

/-- One tick confirms iff the URL contains `/user/profile/`, or the avatar
locator reports `count() > 0` and visible without raising, or the
`web_session` cookie is truthy and differs from its initial snapshot
(browser.py:190-217). -/
def tickConfirms (initws : Option String) (o : PollObs) : Bool :=
  strIn "/user/profile/" o.url ||
  (!o.avatarRaises && o.avatarCount > 0 && o.avatarVisible) ||
  (match webSessionOf o.cookies with
   | some v => !(v = "") && !(some v = initws)
   | none => false)

/-- The poll loop of browser.py:178-229. Terminates with the loop's exit
mode: confirmed at some tick, cancelled (page closed mid-wait), or the
range exhausted with the status still `"waiting"`. Each executed tick
blocks one full poll interval. -/
def pollLoop (env : Nat → PollObs) (initws : Option String) :
    Nat → Nat → Nat → LoginResult
  | 0, _, w =>
    { success := false, cookies := [], status := "waiting", elapsedMs := w }
  | remaining + 1, idx, w =>
    let o := env idx
    let w := w + POLL_INTERVAL_MS
    if o.pageClosed then
      { success := false, cookies := [], status := "cancelled", elapsedMs := w }
    else if tickConfirms initws o then
      { success := false, cookies := [], status := "confirmed", elapsedMs := w }
    else
      pollLoop env initws remaining (idx + 1) w

/-- `browser.wait_for_login_complete` (browser.py:140-240):
run the poll loop; on a `"confirmed"` exit, wait one settle interval and
snapshot the final cookies, with `success := true`. -/
def wait_for_login_complete (env : Nat → PollObs)
    (initialCookies finalCookies : List (String × String))
    (timeout : Nat) : LoginResult :=
  let initws := webSessionOf initialCookies
  let r := pollLoop env initws (maxPolls timeout) 0 0
  if r.status = "confirmed" then
    { success := true, cookies := finalCookies, status := "confirmed",
      elapsedMs := r.elapsedMs + POLL_INTERVAL_MS }
  else r

/-! ## browser.py: channel traversal driver -/

/-- The browser interactions `traverse_feed_channels` can issue for one
channel, as an abstract trace. `expectResponse p` stands for registering a
`page.expect_response(predicate)` listener for pattern-and-category `p`
(the construction used by `trigger_signature_pages`,
`trigger_notification_signatures` and `trigger_note_page_signature`, but
absent from the channel loop). -/
inductive BrowserOp where
  | click (target : String)
  | waitTimeout (ms : Nat)
  | mouseWheel (dx dy : Nat)
  | waitNetworkIdle (timeoutMs : Nat)
  | expectResponse (p : String)
deriving DecidableEq, Repr

/-- The operations issued for one visible channel tab by the loop body of
browser.py:327-354: click, fixed 2000 ms wait, scroll, fixed 1000 ms wait,
bounded network-idle wait, then the randomized human delay. No response
listener is ever registered. -/
def channelVisitOps (channel : String) (delay : Nat) : List BrowserOp :=
  [.click channel, .waitTimeout 2000, .mouseWheel 0 500, .waitTimeout 1000,
   .waitNetworkIdle 5000, .waitTimeout delay]

/-- `browser.traverse_feed_channels` (browser.py:302-360) as a trace
function: for each channel of `FEED_CHANNELS` that has a `CHANNEL_MAP`
entry, emit its interaction trace and whether the loop prints the
channel as successfully captured. `visible` models `tab.is_visible()` and
`delays` the randomized delay; the function receives no network-response
information at all. -/
def traverse_feed_channels (visible : String → Bool)
    (delays : String → Nat) : List (String × List BrowserOp × Bool) :=
  FEED_CHANNELS.filterMap (fun ch =>
    match dictGet CHANNEL_MAP ch with
    | none => none
    | some _ =>
      if visible ch then some (ch, channelVisitOps ch (delays ch), true)
      else some (ch, [], false))

/-! ## Helper lemmas on the string primitives -/

theorem strToList_append (s t : String) : (s ++ t).toList = s.toList ++ t.toList := by
  cases s; cases t; rfl

theorem pyHasChar_eq_false {s : String} {c : Char} (h : pyHasChar s c = false) :
    c ∉ s.toList := by
  simp [pyHasChar] at h
  exact h

theorem pySplitList_of_no_sep {sep : Char} {xs : List Char} (h : sep ∉ xs) :
    pySplitList sep xs = [xs] := by
  induction xs with
  | nil => rfl
  | cons c cs ih =>
    have hc : ¬ c = sep := fun e => h (e ▸ List.mem_cons_self c cs)
    have hcs : sep ∉ cs := fun m => h (List.mem_cons_of_mem _ m)
    simp [pySplitList, hc, ih hcs]

theorem pySplitList_append_sep {sep : Char} {xs ys : List Char} (h : sep ∉ xs) :
    pySplitList sep (xs ++ sep :: ys) = xs :: pySplitList sep ys := by
  induction xs with
  | nil => simp [pySplitList]
  | cons c cs ih =>
    have hc : ¬ c = sep := fun e => h (e ▸ List.mem_cons_self c cs)
    have hcs : sep ∉ cs := fun m => h (List.mem_cons_of_mem _ m)
    simp only [List.cons_append, pySplitList, hc, if_false, List.append_eq, ih hcs]

theorem pySplit_dot {a b : String} (ha : pyHasChar a '.' = false)
    (hb : pyHasChar b '.' = false) :
    pySplit '.' (a ++ "." ++ b) = [a, b] := by
  have ha' := pyHasChar_eq_false ha
  have hb' := pyHasChar_eq_false hb
  have hlist : (a ++ "." ++ b).toList = a.toList ++ '.' :: b.toList := by
    rw [strToList_append, strToList_append]
    simp
  rw [pySplit, hlist, pySplitList_append_sep ha', pySplitList_of_no_sep hb']
  simp only [List.map_cons, List.map_nil]
  exact by rw [String.asString_toList, String.asString_toList]

theorem deriveStorageEndpoint_dotted {a b : String}
    (ha : pyHasChar a '.' = false) (hb : pyHasChar b '.' = false)
    (hne : a ++ "." ++ b ≠ "homefeed_recommend") :
    deriveStorageEndpoint (a ++ "." ++ b) =
      "home_feed_" ++ (if pyEndsWith b "_v3" then pyDropRight b 3
                       else (pySplit '_' b).headD "") := by
  have hdot : pyHasChar (a ++ "." ++ b) '.' = true := by
    simp [pyHasChar, strToList_append]
  rw [deriveStorageEndpoint, if_neg hne, if_pos hdot, pySplit_dot ha hb]
  by_cases hv : pyEndsWith b "_v3" = true <;> simp [hv]

/-- C1: the home_feed category discriminator derivation: the literal
`"homefeed_recommend"` maps to `"home_feed_recommend"`; the spec's two
examples compute as claimed; and in general, for a dotted discriminator
`a.b` (neither part containing a further dot), a second segment ending in
the version suffix `"_v3"` yields `"home_feed_"` plus the segment with the
suffix removed, while a second segment missing the suffix falls back to its
first underscore-delimited piece. -/
theorem home_feed_category_derivation :
    deriveStorageEndpoint "homefeed_recommend" = "home_feed_recommend"
    ∧ deriveStorageEndpoint "homefeed.fashion_v3" = "home_feed_fashion"
    ∧ deriveStorageEndpoint "homefeed.movie_and_tv_v3" = "home_feed_movie_and_tv"
    ∧ (∀ a b : String, pyHasChar a '.' = false → pyHasChar b '.' = false →
        pyEndsWith b "_v3" = true → a ++ "." ++ b ≠ "homefeed_recommend" →
        deriveStorageEndpoint (a ++ "." ++ b) = "home_feed_" ++ pyDropRight b 3)
    ∧ (∀ a b : String, pyHasChar a '.' = false → pyHasChar b '.' = false →
        pyEndsWith b "_v3" = false → a ++ "." ++ b ≠ "homefeed_recommend" →
        deriveStorageEndpoint (a ++ "." ++ b) =
          "home_feed_" ++ (pySplit '_' b).headD "") := by
  refine ⟨by decide, by decide, by decide, ?_, ?_⟩
  · intro a b ha hb hv hne
    rw [deriveStorageEndpoint_dotted ha hb hne, if_pos hv]
  · intro a b ha hb hv hne
    rw [deriveStorageEndpoint_dotted ha hb hne, if_neg (by simp [hv])]

/-- Witness for C1: the two general laws applied at the concrete
discriminators `"homefeed.career_v3"` and `"homefeed.special_topic"`. -/
theorem home_feed_category_derivation_witness :
    (pyHasChar "homefeed" '.' = false ∧ pyHasChar "career_v3" '.' = false ∧
     pyEndsWith "career_v3" "_v3" = true ∧
     "homefeed" ++ "." ++ "career_v3" ≠ "homefeed_recommend" ∧
     deriveStorageEndpoint ("homefeed" ++ "." ++ "career_v3") =
       "home_feed_" ++ pyDropRight "career_v3" 3)
    ∧ (pyEndsWith "special_topic" "_v3" = false ∧
       deriveStorageEndpoint ("homefeed" ++ "." ++ "special_topic") =
         "home_feed_" ++ (pySplit '_' "special_topic").headD "") :=
  ⟨⟨by decide, by decide, by decide, by decide,
    home_feed_category_derivation.2.2.2.1 "homefeed" "career_v3"
      (by decide) (by decide) (by decide) (by decide)⟩,
   ⟨by decide,
    home_feed_category_derivation.2.2.2.2 "homefeed" "special_topic"
      (by decide) (by decide) (by decide) (by decide)⟩⟩

/-! ## C8: the longest-seen x-s-common invariant -/

theorem handle_request_x_s_common (oracle : JsonOracle) (st : CaptureState)
    (r : Request) :
    (handle_request oracle st r).x_s_common = stepXSCommon st.x_s_common r := by
  rcases h : matchEndpoint r with _ | ep <;> simp [handle_request, h]

theorem pyLen_stepXSCommon (s : String) (r : Request) :
    pyLen (stepXSCommon s r) =
      match dictGet r.headers "x-s-common" with
      | some v => max (pyLen s) (pyLen v)
      | none => pyLen s := by
  rcases h : dictGet r.headers "x-s-common" with _ | v
  · simp [stepXSCommon, h]
  · simp only [stepXSCommon, h]
    by_cases hv : pyLen v > pyLen s
    · simp [hv, Nat.max_eq_right (Nat.le_of_lt hv)]
    · simp [hv, Nat.max_eq_left (Nat.le_of_not_lt hv)]

theorem foldl_handle_x_s_common_len (oracle : JsonOracle) (rs : List Request)
    (st : CaptureState) :
    pyLen ((rs.foldl (handle_request oracle) st).x_s_common) =
      (rs.filterMap (fun r => dictGet r.headers "x-s-common")).foldl
        (fun m v => max m (pyLen v)) (pyLen st.x_s_common) := by
  induction rs generalizing st with
  | nil => rfl
  | cons r rest ih =>
    rw [List.foldl_cons, ih, handle_request_x_s_common]
    rcases h : dictGet r.headers "x-s-common" with _ | v
    · simp only [List.filterMap_cons, h, pyLen_stepXSCommon, h]
    · simp only [List.filterMap_cons, h, List.foldl_cons, pyLen_stepXSCommon, h]

/-- C8: the tracked common signing header starts empty; a single
observation either leaves it unchanged or replaces it by a strictly longer
observed `x-s-common` value; and after any sequence of observations its
length is the maximum of the lengths of all `x-s-common` values observed so
far (zero when none carried the header). -/
theorem x_s_common_longest_invariant :
    initCaptureState.x_s_common = ""
    ∧ (∀ (oracle : JsonOracle) (st : CaptureState) (r : Request),
        (handle_request oracle st r).x_s_common = st.x_s_common
        ∨ ∃ v, dictGet r.headers "x-s-common" = some v
            ∧ pyLen v > pyLen st.x_s_common
            ∧ (handle_request oracle st r).x_s_common = v)
    ∧ (∀ (oracle : JsonOracle) (rs : List Request),
        pyLen ((rs.foldl (handle_request oracle) initCaptureState).x_s_common) =
          (rs.filterMap (fun r => dictGet r.headers "x-s-common")).foldl
            (fun m v => max m (pyLen v)) 0) := by
  refine ⟨rfl, ?_, ?_⟩
  · intro oracle st r
    rw [handle_request_x_s_common]
    rcases h : dictGet r.headers "x-s-common" with _ | v
    · left; simp [stepXSCommon, h]
    · by_cases hv : pyLen v > pyLen st.x_s_common
      · right; exact ⟨v, rfl, hv, by simp [stepXSCommon, h, hv]⟩
      · left; simp [stepXSCommon, h, hv]
  · intro oracle rs
    have := foldl_handle_x_s_common_len oracle rs initCaptureState
    simpa [initCaptureState, pyLen] using this

/-! ## C10: the derived user identifier -/

/-- C10: `save_credentials` returns (and stores on the inserted document)
the concatenation of the `a1`, `webId`, `gid`, `web_session` cookie values
in that order, each missing cookie contributing `""`; with no cookies at
all the identifier is `""`. -/
theorem save_credentials_user_identifier :
    (∀ (store : List CredDoc) (cookies : List (String × String)) (x : String),
       (save_credentials store cookies x).2 =
         dictGetD cookies "a1" "" ++ dictGetD cookies "webId" "" ++
           dictGetD cookies "gid" "" ++ dictGetD cookies "web_session" ""
       ∧ ∃ pre, (save_credentials store cookies x).1 =
           pre ++ [mkCredDoc cookies x]
         ∧ (mkCredDoc cookies x).user_id = (save_credentials store cookies x).2)
    ∧ (∀ (store : List CredDoc) (x : String),
        (save_credentials store [] x).2 = "") := by
  constructor
  · intro store cookies x
    refine ⟨?_, ⟨store.map (fun (d : CredDoc) => { d with is_valid := false }), rfl, rfl⟩⟩
    simp [save_credentials, userIdOf, USER_ID_COOKIE_KEYS, String.join]
  · intro store x
    simp [save_credentials, userIdOf, USER_ID_COOKIE_KEYS, String.join, dictGetD,
      dictGet]

/-! ## C4: single active credential invariant -/

/-- A sequence of `save_credentials` calls applied to a store (each input
is the cookie dict and `x_s_common` argument of one call). -/
def applySaves (store : List CredDoc)
    (inputs : List (List (String × String) × String)) : List CredDoc :=
  inputs.foldl (fun s i => (save_credentials s i.1 i.2).1) store

theorem invalidated_filter (store : List CredDoc) :
    (store.map (fun d => { d with is_valid := false })).filter
      (fun d => d.is_valid) = [] := by
  induction store with
  | nil => rfl
  | cons d rest ih => simp [ih]

theorem one_save_valid (store : List CredDoc)
    (cookies : List (String × String)) (x : String) :
    ((save_credentials store cookies x).1).filter (fun d => d.is_valid) =
      [mkCredDoc cookies x] := by
  simp [save_credentials, List.filter_append, invalidated_filter, mkCredDoc]

/-- C4: every save first marks all existing documents invalid and then
inserts the new valid one; hence after any non-empty sequence of
`save_credentials` calls (from any starting store) exactly one stored
document has `is_valid = true`, namely the one saved last. -/
theorem save_credentials_single_active :
    (∀ (store : List CredDoc) (cookies : List (String × String)) (x : String),
       (save_credentials store cookies x).1 =
         store.map (fun d => { d with is_valid := false }) ++
           [mkCredDoc cookies x])
    ∧ (∀ (store : List CredDoc)
         (inputs : List (List (String × String) × String)) (h : inputs ≠ []),
        (applySaves store inputs).filter (fun d => d.is_valid) =
          [mkCredDoc (inputs.getLast h).1 (inputs.getLast h).2]) := by
  constructor
  · intro store cookies x
    rfl
  · intro store inputs
    induction inputs generalizing store with
    | nil => intro h; exact absurd rfl h
    | cons i rest ih =>
      intro h
      by_cases hr : rest = []
      · subst hr
        simpa [applySaves] using one_save_valid store i.1 i.2
      · have : applySaves store (i :: rest) =
            applySaves (save_credentials store i.1 i.2).1 rest := rfl
        rw [this, ih _ hr, List.getLast_cons hr]

/-- Witness for C4: two consecutive saves starting from an empty store
leave exactly the second document valid. -/
theorem save_credentials_single_active_witness :
    ([([("a1", "u1")], "c1"), ([("a1", "u2")], "c2")] ≠
      ([] : List (List (String × String) × String)))
    ∧ (applySaves [] [([("a1", "u1")], "c1"), ([("a1", "u2")], "c2")]).filter
        (fun d => d.is_valid) =
        [mkCredDoc
          (([([("a1", "u1")], "c1"), ([("a1", "u2")], "c2")].getLast
             (by decide)).1)
          (([([("a1", "u1")], "c1"), ([("a1", "u2")], "c2")].getLast
             (by decide)).2)] :=
  ⟨by decide,
   save_credentials_single_active.2 []
     [([("a1", "u1")], "c1"), ([("a1", "u2")], "c2")] (by decide)⟩

/-! ## Dict and store lemmas for C3 -/

theorem dictGet_dictSet_self (k : String) (v : α) (m : List (String × α)) :
    dictGet (dictSet k v m) k = some v := by
  induction m with
  | nil => simp [dictSet, dictGet]
  | cons p rest ih =>
    by_cases h : p.1 = k
    · simp [dictSet, dictGet, h]
    · simp only [dictSet, h, if_false]
      simpa [dictGet, List.find?, h] using ih

theorem dictHas_eq_false_iff (m : List (String × α)) (k : String) :
    dictHas m k = false ↔ k ∉ m.map (·.1) := by
  induction m with
  | nil => simp [dictHas, dictGet]
  | cons p rest ih =>
    by_cases h : p.1 = k
    · simp [dictHas, dictGet, List.find?, h]
    · simp only [dictHas, dictGet, List.find?, h] at ih ⊢
      simp only [List.map_cons, List.mem_cons]
      constructor
      · intro hf hk
        rcases hk with hk | hk
        · exact h hk.symm
        · exact (ih.mp (by simpa [dictHas, dictGet] using hf)) hk
      · intro hk
        have : k ∉ rest.map (·.1) := fun m' => hk (Or.inr m')
        simpa [dictHas, dictGet, decide_eq_false h] using ih.mpr this

theorem dictSet_keys_of_has {m : List (String × α)} {k : String}
    (h : dictHas m k = true) (v : α) :
    (dictSet k v m).map (·.1) = m.map (·.1) := by
  induction m with
  | nil => simp [dictHas, dictGet] at h
  | cons p rest ih =>
    by_cases hp : p.1 = k
    · simp [dictSet, hp]
    · simp only [dictHas, dictGet, List.find?, decide_eq_false hp] at h
      simp [dictSet, hp, ih (by simpa [dictHas, dictGet] using h)]

theorem dictSet_keys_of_not {m : List (String × α)} {k : String}
    (h : dictHas m k = false) (v : α) :
    (dictSet k v m).map (·.1) = m.map (·.1) ++ [k] := by
  induction m with
  | nil => simp [dictSet]
  | cons p rest ih =>
    by_cases hp : p.1 = k
    · simp [dictHas, dictGet, List.find?, hp] at h
    · simp only [dictHas, dictGet, List.find?, decide_eq_false hp] at h
      simp [dictSet, hp, ih (by simpa [dictHas, dictGet] using h)]

theorem dictSet_keys_nodup {m : List (String × α)} {k : String} {v : α}
    (h : (m.map (·.1)).Nodup) : ((dictSet k v m).map (·.1)).Nodup := by
  rcases hk : dictHas m k with _ | _
  · rw [dictSet_keys_of_not hk]
    have hnm : k ∉ m.map (·.1) := (dictHas_eq_false_iff m k).mp hk
    simp [List.nodup_append, h, hnm]
  · rw [dictSet_keys_of_has hk]
    exact h

theorem dictGet_some_mem {m : List (String × α)} {k : String} {v : α}
    (h : dictGet m k = some v) : (k, v) ∈ m := by
  induction m with
  | nil => simp [dictGet] at h
  | cons p rest ih =>
    by_cases hp : p.1 = k
    · simp only [dictGet, List.find?, decide_eq_true hp, Option.map_some] at h
      cases h
      cases p
      simp_all
    · simp only [dictGet, List.find?, decide_eq_false hp] at h
      exact List.mem_cons_of_mem _ (ih (by simpa [dictGet] using h))

/-- The store component of `save_all_signatures` as a plain fold. -/
def saveFold (entries : List (String × SigBundle)) (store : List SigDoc) :
    List SigDoc :=
  entries.foldl (fun acc kv => save_signature acc kv.1 kv.2) store

theorem save_all_signatures_fst_aux (entries : List (String × SigBundle))
    (store : List SigDoc) (saved : List String) :
    (entries.foldl
      (fun acc kv => (save_signature acc.1 kv.1 kv.2, acc.2 ++ [kv.1]))
      (store, saved)).1 = saveFold entries store := by
  induction entries generalizing store saved with
  | nil => rfl
  | cons e rest ih =>
    simp only [saveFold, List.foldl_cons] at ih ⊢
    exact ih _ _

theorem save_all_signatures_fst (st : CaptureState) (store : List SigDoc) :
    (save_all_signatures st store).1 = saveFold st.signatures store :=
  save_all_signatures_fst_aux st.signatures store []

theorem storeUpsert_filter_ne {d : SigDoc} {k : String} (h : d.endpoint ≠ k)
    (store : List SigDoc) :
    (storeUpsert d store).filter (fun x => x.endpoint = k) =
      store.filter (fun x => x.endpoint = k) := by
  induction store with
  | nil => simp [storeUpsert, h]
  | cons d' rest ih =>
    by_cases hd : d'.endpoint = d.endpoint
    · simp only [storeUpsert, hd, if_true]
      have hd' : ¬ d'.endpoint = k := fun e => h (hd ▸ e)
      simp [List.filter_cons, h, hd']
    · simp [storeUpsert, hd, List.filter_cons, ih]

theorem filter_endpoint_nil_of_not_mem {store : List SigDoc} {k : String}
    (h : k ∉ store.map (·.endpoint)) :
    store.filter (fun x => x.endpoint = k) = [] := by
  induction store with
  | nil => rfl
  | cons d rest ih =>
    simp only [List.map_cons, List.mem_cons] at h
    push_neg at h
    have h1 : ¬ d.endpoint = k := fun e => h.1 e.symm
    simp [List.filter_cons, h1, ih h.2]

theorem storeUpsert_filter_eq {d : SigDoc} {k : String} (h : d.endpoint = k)
    {store : List SigDoc}
    (hstore : store.filter (fun x => x.endpoint = k) = []
      ∨ ∃ old, store.filter (fun x => x.endpoint = k) = [old]) :
    (storeUpsert d store).filter (fun x => x.endpoint = k) = [d] := by
  induction store with
  | nil => simp [storeUpsert, h]
  | cons d' rest ih =>
    by_cases hd : d'.endpoint = d.endpoint
    · have hd' : d'.endpoint = k := hd.trans h
      rcases hstore with hs | ⟨old, hs⟩
      · rw [List.filter_cons_of_pos (by simp [hd'])] at hs
        exact absurd hs (List.cons_ne_nil _ _)
      · rw [List.filter_cons_of_pos (by simp [hd'])] at hs
        have hrest : rest.filter (fun x => x.endpoint = k) = [] :=
          (List.cons_eq_cons.mp hs).2
        simp only [storeUpsert, hd, if_true]
        rw [List.filter_cons_of_pos (by simp [h]), hrest]
    · by_cases hd' : d'.endpoint = k
      · exact absurd (hd'.trans h.symm) hd
      · simp only [List.filter_cons, decide_eq_false hd'] at hstore
        simp [storeUpsert, hd, List.filter_cons, decide_eq_false hd', ih hstore]

theorem saveFold_filter_not_mem {entries : List (String × SigBundle)}
    {k : String} (h : k ∉ entries.map (·.1)) (store : List SigDoc) :
    (saveFold entries store).filter (fun x => x.endpoint = k) =
      store.filter (fun x => x.endpoint = k) := by
  induction entries generalizing store with
  | nil => rfl
  | cons e rest ih =>
    simp only [List.map_cons, List.mem_cons] at h
    push_neg at h
    have he : (mkSigDoc e.1 e.2).endpoint ≠ k := fun hh => h.1 hh.symm
    have hstep : saveFold (e :: rest) store =
        saveFold rest (storeUpsert (mkSigDoc e.1 e.2) store) := rfl
    rw [hstep, ih h.2, storeUpsert_filter_ne he store]

theorem saveFold_filter_mem {entries : List (String × SigBundle)} {k : String}
    {b : SigBundle} (hmem : (k, b) ∈ entries)
    (hnodup : (entries.map (·.1)).Nodup) (store : List SigDoc)
    (hstore : store.filter (fun x => x.endpoint = k) = []
      ∨ ∃ old, store.filter (fun x => x.endpoint = k) = [old]) :
    (saveFold entries store).filter (fun x => x.endpoint = k) =
      [mkSigDoc k b] := by
  induction entries generalizing store with
  | nil => simp at hmem
  | cons e rest ih =>
    rcases List.mem_cons.mp hmem with he | he
    · subst he
      have hk : k ∉ rest.map (·.1) := by
        simp only [List.map_cons, List.nodup_cons] at hnodup
        exact hnodup.1
      have hup : (storeUpsert (mkSigDoc k b) store).filter
          (fun x => x.endpoint = k) = [mkSigDoc k b] :=
        @storeUpsert_filter_eq (mkSigDoc k b) k rfl store hstore
      have hstep : saveFold ((k, b) :: rest) store =
          saveFold rest (storeUpsert (mkSigDoc k b) store) := rfl
      rw [hstep, saveFold_filter_not_mem hk]
      exact hup
    · have hk : e.1 ≠ k := by
        simp only [List.map_cons, List.nodup_cons] at hnodup
        intro hkk
        exact hnodup.1 (hkk ▸ (List.mem_map_of_mem (·.1) he))
      have hrest : (rest.map (·.1)).Nodup := by
        simp only [List.map_cons, List.nodup_cons] at hnodup
        exact hnodup.2
      have hstep : saveFold (e :: rest) store =
          saveFold rest (storeUpsert (mkSigDoc e.1 e.2) store) := rfl
      rw [hstep]
      have hstore' : (storeUpsert (mkSigDoc e.1 e.2) store).filter
            (fun x => x.endpoint = k) = []
          ∨ ∃ old, (storeUpsert (mkSigDoc e.1 e.2) store).filter
              (fun x => x.endpoint = k) = [old] := by
        rw [storeUpsert_filter_ne hk store]
        exact hstore
      exact ih he hrest _ hstore'

theorem nodup_filter_endpoint {store : List SigDoc} {k : String}
    (h : (store.map (·.endpoint)).Nodup) :
    store.filter (fun x => x.endpoint = k) = []
      ∨ ∃ old, store.filter (fun x => x.endpoint = k) = [old] := by
  induction store with
  | nil => exact Or.inl rfl
  | cons d rest ih =>
    simp only [List.map_cons, List.nodup_cons] at h
    by_cases hd : d.endpoint = k
    · right
      refine ⟨d, ?_⟩
      have : k ∉ rest.map (·.endpoint) := hd ▸ h.1
      simp [List.filter_cons, hd, filter_endpoint_nil_of_not_mem this]
    · simpa [List.filter_cons, hd] using ih h.2

theorem handle_request_signatures_of_key {oracle : JsonOracle}
    {r : Request} {k : String} (st : CaptureState)
    (h : observedKey oracle r = some k) :
    (handle_request oracle st r).signatures =
      dictSet k (mkBundle r (effPostData r)) st.signatures := by
  rcases hm : matchEndpoint r with _ | ep
  · simp [observedKey, hm] at h
  · have hk : storageEndpointOf oracle ep (effPostData r) = k := by
      simpa [observedKey, hm] using h
    simp [handle_request, hm, hk]

/-- C3: a single `handle_request` call adds or replaces at most one
signature bundle; and when two observations `r1` then `r2` derive the same
`endpoint_id` `k`, the signature map afterwards holds exactly `r2`'s bundle
at `k` without having grown a new entry for it, and after
`save_all_signatures` the persisted store holds exactly one document for
`k`, carrying `r2`'s bundle (latest wins). -/
theorem observe_upsert_law :
    (∀ (oracle : JsonOracle) (st : CaptureState) (r : Request),
       (handle_request oracle st r).signatures = st.signatures
       ∨ ∃ k, (handle_request oracle st r).signatures =
           dictSet k (mkBundle r (effPostData r)) st.signatures)
    ∧ (∀ (oracle : JsonOracle) (st : CaptureState) (r1 r2 : Request)
         (k : String) (store : List SigDoc),
        observedKey oracle r1 = some k → observedKey oracle r2 = some k →
        (st.signatures.map (·.1)).Nodup → (store.map (·.endpoint)).Nodup →
        dictGet (handle_request oracle (handle_request oracle st r1) r2).signatures
            k = some (mkBundle r2 (effPostData r2))
        ∧ (handle_request oracle (handle_request oracle st r1) r2).signatures.map
              (·.1) =
            (handle_request oracle st r1).signatures.map (·.1)
        ∧ (save_all_signatures
              (handle_request oracle (handle_request oracle st r1) r2)
              store).1.filter (fun d => d.endpoint = k) =
            [mkSigDoc k (mkBundle r2 (effPostData r2))]) := by
  constructor
  · intro oracle st r
    rcases hm : matchEndpoint r with _ | ep
    · left; simp [handle_request, hm]
    · right
      exact ⟨storageEndpointOf oracle ep (effPostData r), by
        simp [handle_request, hm]⟩
  · intro oracle st r1 r2 k store h1 h2 hnodup hstore
    have e1 : (handle_request oracle st r1).signatures =
        dictSet k (mkBundle r1 (effPostData r1)) st.signatures :=
      handle_request_signatures_of_key st h1
    have e2 : (handle_request oracle (handle_request oracle st r1) r2).signatures =
        dictSet k (mkBundle r2 (effPostData r2))
          (handle_request oracle st r1).signatures :=
      handle_request_signatures_of_key _ h2
    have hk1 : dictHas (handle_request oracle st r1).signatures k = true := by
      rw [e1]
      simp [dictHas, dictGet_dictSet_self]
    have hnodup1 : ((handle_request oracle st r1).signatures.map (·.1)).Nodup := by
      rw [e1]
      exact dictSet_keys_nodup hnodup
    have hget : dictGet (handle_request oracle
        (handle_request oracle st r1) r2).signatures k =
        some (mkBundle r2 (effPostData r2)) := by
      rw [e2]
      exact dictGet_dictSet_self _ _ _
    refine ⟨hget, ?_, ?_⟩
    · rw [e2]
      exact dictSet_keys_of_has hk1 _
    · rw [save_all_signatures_fst]
      have hmem : (k, mkBundle r2 (effPostData r2)) ∈
          (handle_request oracle (handle_request oracle st r1) r2).signatures :=
        dictGet_some_mem hget
      have hnodup2 : ((handle_request oracle
          (handle_request oracle st r1) r2).signatures.map (·.1)).Nodup := by
        rw [e2]
        exact dictSet_keys_nodup hnodup1
      exact saveFold_filter_mem hmem hnodup2 store (nodup_filter_endpoint hstore)

/-- Witness for C3: two concrete homefeed observations deriving the same
endpoint id `"home_feed_fashion"`, on the empty capture state and store. -/
theorem observe_upsert_law_witness :
    (observedKey (fun _ => Except.ok (some "homefeed.fashion_v3"))
       { url := "https://edith.xiaohongshu.com/api/sns/web/v1/homefeed",
         headers := [("x-s", "s1"), ("x-t", "t1")], method := "POST",
         post_data := some "b1" } = some "home_feed_fashion")
    ∧ dictGet (handle_request (fun _ => Except.ok (some "homefeed.fashion_v3"))
        (handle_request (fun _ => Except.ok (some "homefeed.fashion_v3"))
          initCaptureState
          { url := "https://edith.xiaohongshu.com/api/sns/web/v1/homefeed",
            headers := [("x-s", "s1"), ("x-t", "t1")], method := "POST",
            post_data := some "b1" })
        { url := "https://edith.xiaohongshu.com/api/sns/web/v1/homefeed",
          headers := [("x-s", "s2"), ("x-t", "t2")], method := "POST",
          post_data := some "b2" }).signatures "home_feed_fashion" =
      some (mkBundle
        { url := "https://edith.xiaohongshu.com/api/sns/web/v1/homefeed",
          headers := [("x-s", "s2"), ("x-t", "t2")], method := "POST",
          post_data := some "b2" }
        (effPostData
          { url := "https://edith.xiaohongshu.com/api/sns/web/v1/homefeed",
            headers := [("x-s", "s2"), ("x-t", "t2")], method := "POST",
            post_data := some "b2" })) := by
  refine ⟨by decide, ?_⟩
  exact (observe_upsert_law.2 (fun _ => Except.ok (some "homefeed.fashion_v3"))
    initCaptureState
    { url := "https://edith.xiaohongshu.com/api/sns/web/v1/homefeed",
      headers := [("x-s", "s1"), ("x-t", "t1")], method := "POST",
      post_data := some "b1" }
    { url := "https://edith.xiaohongshu.com/api/sns/web/v1/homefeed",
      headers := [("x-s", "s2"), ("x-t", "t2")], method := "POST",
      post_data := some "b2" }
    "home_feed_fashion" [] (by decide) (by decide) (by decide) (by decide)).1

theorem dictGet_dictSet_ne {k k' : String} (h : k' ≠ k) (v : α)
    (m : List (String × α)) :
    dictGet (dictSet k v m) k' = dictGet m k' := by
  have hkk : ¬ (k = k') := fun e => h e.symm
  induction m with
  | nil => simp [dictSet, dictGet, List.find?, decide_eq_false hkk]
  | cons p rest ih =>
    by_cases hp : p.1 = k
    · have hp' : ¬ p.1 = k' := fun e => h (e.symm.trans hp)
      simp [dictSet, dictGet, List.find?, hp, decide_eq_false hkk,
        decide_eq_false hp']
    · by_cases hp' : p.1 = k'
      · simp [dictSet, dictGet, List.find?, hp, decide_eq_true hp']
      · simp only [dictSet, hp, if_false]
        simpa [dictGet, List.find?, decide_eq_false hp'] using ih

/-- Counterexample to C2 as stated: a home_feed request carrying `x-s` but
no POST body still causes `handle_request` to add a signature bundle (under
the generic key `"home_feed"`), so the signature map does change. -/
theorem home_feed_missing_body_emits_generic :
    (handle_request (fun _ => Except.error ()) initCaptureState
      { url := "https://edith.xiaohongshu.com/api/sns/web/v1/homefeed",
        headers := [("x-s", "sig")], method := "POST",
        post_data := none }).signatures ≠ initCaptureState.signatures
    ∧ (handle_request (fun _ => Except.error ()) initCaptureState
        { url := "https://edith.xiaohongshu.com/api/sns/web/v1/homefeed",
          headers := [("x-s", "sig")], method := "POST",
          post_data := none }).signatures =
      [("home_feed",
        { x_s := "sig", x_t := "", x_s_common := "", x_b3_traceid := "",
          x_xray_traceid := "", method := "POST", post_body := none })] := by
  constructor
  · decide
  · decide

/-- C2 (amended): a home_feed-matching request carrying `x-s` whose body is
absent, empty, not decodable as JSON, or lacking a truthy category
discriminator still emits exactly one bundle, stored under the generic key
`"home_feed"`; no other key of the signature map — in particular no
category-specific `home_feed_*` key — is added or overwritten. -/
theorem home_feed_uncorrelated_generic_key :
    ∀ (oracle : JsonOracle) (st : CaptureState) (r : Request),
      matchEndpoint r = some "home_feed" →
      (effPostData r = none ∨ effPostData r = some "" ∨
       (∃ pd e, effPostData r = some pd ∧ oracle pd = Except.error e) ∨
       (∃ pd, effPostData r = some pd ∧ oracle pd = Except.ok none)) →
      (handle_request oracle st r).signatures =
        dictSet "home_feed" (mkBundle r (effPostData r)) st.signatures
      ∧ ∀ k', k' ≠ "home_feed" →
          dictGet (handle_request oracle st r).signatures k' =
            dictGet st.signatures k' := by
  intro oracle st r hm hbad
  have hkey : storageEndpointOf oracle "home_feed" (effPostData r) =
      "home_feed" := by
    rcases hbad with h | h | ⟨pd, e, hpd, hor⟩ | ⟨pd, hpd, hor⟩
    · simp [storageEndpointOf, h]
    · simp [storageEndpointOf, h]
    · simp [storageEndpointOf, hpd, hor]
    · simp [storageEndpointOf, hpd, hor]
  have hsig : (handle_request oracle st r).signatures =
      dictSet "home_feed" (mkBundle r (effPostData r)) st.signatures := by
    simp [handle_request, hm, hkey]
  exact ⟨hsig, fun k' hk' => by rw [hsig, dictGet_dictSet_ne hk']⟩

/-- Witness for the amended C2: the concrete body-less request of the
counterexample, checked against the generic-key law. -/
theorem home_feed_uncorrelated_generic_key_witness :
    (matchEndpoint
      { url := "https://edith.xiaohongshu.com/api/sns/web/v1/homefeed",
        headers := [("x-s", "sig")], method := "POST", post_data := none } =
      some "home_feed")
    ∧ (handle_request (fun _ => Except.error ()) initCaptureState
        { url := "https://edith.xiaohongshu.com/api/sns/web/v1/homefeed",
          headers := [("x-s", "sig")], method := "POST",
          post_data := none }).signatures =
      dictSet "home_feed"
        (mkBundle
          { url := "https://edith.xiaohongshu.com/api/sns/web/v1/homefeed",
            headers := [("x-s", "sig")], method := "POST", post_data := none }
          (effPostData
            { url := "https://edith.xiaohongshu.com/api/sns/web/v1/homefeed",
              headers := [("x-s", "sig")], method := "POST",
              post_data := none }))
        initCaptureState.signatures :=
  ⟨by decide,
   (home_feed_uncorrelated_generic_key (fun _ => Except.error ())
     initCaptureState
     { url := "https://edith.xiaohongshu.com/api/sns/web/v1/homefeed",
       headers := [("x-s", "sig")], method := "POST", post_data := none }
     (by decide) (Or.inl (by decide))).1⟩

/-! ## C7: the QR decoder never raises -/

theorem qrRegenerate_cases (env : QrBackends) (content0 : String) :
    (∃ e, qrRegenerate env content0 = .error e)
    ∨ qrRegenerate env content0 = .ok simple_ascii_placeholder
    ∨ ∃ m, qrRegenerate env content0 = .ok (renderGrid m) := by
  unfold qrRegenerate
  split
  · split
    · rename_i e _
      exact Or.inl ⟨e, rfl⟩
    · split
      · rename_i e _
        exact Or.inl ⟨e, rfl⟩
      · rename_i m _
        exact Or.inr (Or.inr ⟨m, rfl⟩)
  · exact Or.inr (Or.inl rfl)

theorem qrDecodeImage_cases (env : QrBackends) (img_data : String) :
    (∃ e, qrDecodeImage env img_data = .error e)
    ∨ qrDecodeImage env img_data = .ok simple_ascii_placeholder
    ∨ ∃ m, qrDecodeImage env img_data = .ok (renderGrid m) := by
  unfold qrDecodeImage
  split
  · split
    · rename_i e _
      exact Or.inl ⟨e, rfl⟩
    · split
      · rename_i e _
        exact Or.inl ⟨e, rfl⟩
      · exact Or.inr (Or.inl rfl)
      · rename_i content0 tail _
        exact qrRegenerate_cases env content0
  · exact Or.inr (Or.inl rfl)

theorem qrTryBlock_cases (env : QrBackends) (d : String) :
    (∃ e, qrTryBlock env d = .error e)
    ∨ qrTryBlock env d = .ok simple_ascii_placeholder
    ∨ ∃ m, qrTryBlock env d = .ok (renderGrid m) := by
  unfold qrTryBlock
  split
  · rename_i e _
    exact Or.inl ⟨e, rfl⟩
  · rename_i img_data _
    exact qrDecodeImage_cases env img_data

theorem base64_to_ascii_total (env : QrBackends) (s : String) :
    ∃ out, base64_to_ascii env s = Except.ok out
      ∧ (out = "[无法获取二维码]" ∨ out = simple_ascii_placeholder
         ∨ ∃ m, out = renderGrid m) := by
  unfold base64_to_ascii
  by_cases hs : s = ""
  · exact ⟨"[无法获取二维码]", by simp [hs], Or.inl rfl⟩
  · simp only [hs, if_false]
    rcases qrTryBlock_cases env
        (if pyHasChar s ',' then (pySplit ',' s).getD 1 "" else s) with
      ⟨e, he⟩ | hpl | ⟨m, hm⟩
    · exact ⟨simple_ascii_placeholder, by rw [he], Or.inr (Or.inl rfl)⟩
    · exact ⟨simple_ascii_placeholder, by rw [hpl], Or.inr (Or.inl rfl)⟩
    · exact ⟨renderGrid m, by rw [hm], Or.inr (Or.inr ⟨m, rfl⟩)⟩

/-- C7: for every input string and every backend configuration — including
malformed base64, undecodable images and absent decode backends —
`base64_to_ascii` returns (never raises) a displayable string: the decoded
glyph grid, the ASCII placeholder block, or the no-QR message. -/
theorem base64_to_ascii_never_fails :
    ∀ (env : QrBackends) (s : String),
      ∃ out, base64_to_ascii env s = Except.ok out
        ∧ (out = "[无法获取二维码]" ∨ out = simple_ascii_placeholder
           ∨ ∃ m, out = renderGrid m) :=
  base64_to_ascii_total


/-! ## C9: the QR extraction attempt budget -/

/-- Whether an attempt result is a success. -/
def AttemptRes.isSuccess : AttemptRes → Bool
  | .success _ _ => true
  | _ => false

/-- An attempt is good iff nothing raised and the observed `src` passes the
validation of qr_code.py:129. -/
def attemptGood (o : AttemptObs) : Bool :=
  !o.raises &&
    (match o.src with
     | some s => validSrc s
     | none => false)

theorem attemptRes_success_valid {qenv : QrBackends} {o : AttemptObs}
    {s a : String} (h : attemptRes qenv o = .success s a) :
    o.src = some s ∧ validSrc s = true := by
  unfold attemptRes at h
  split at h
  · exact absurd h (by simp)
  · split at h
    · rename_i s' hsrc
      split at h
      · split at h
        · rename_i hv _ a' hb
          cases h
          exact ⟨hsrc, by assumption⟩
        · exact absurd h (by simp)
      · exact absurd h (by simp)
    · exact absurd h (by simp)

theorem attemptGood_iff_success (qenv : QrBackends) (o : AttemptObs) :
    attemptGood o = true ↔ (attemptRes qenv o).isSuccess = true := by
  constructor
  · intro h
    simp only [attemptGood, Bool.and_eq_true, Bool.not_eq_true'] at h
    obtain ⟨hr, hsrc⟩ := h
    rcases ho : o.src with _ | s
    · rw [ho] at hsrc
      simp at hsrc
    · rw [ho] at hsrc
      simp only [] at hsrc
      obtain ⟨out, hout, -⟩ := base64_to_ascii_total qenv s
      simp [attemptRes, hr, ho, hsrc, hout, AttemptRes.isSuccess]
  · intro h
    rcases hres : attemptRes qenv o with ⟨s, a⟩ | m | _
    · obtain ⟨hsrc, hv⟩ := attemptRes_success_valid hres
      have hr : o.raises = false := by
        by_contra hcon
        have : o.raises = true := by
          cases hor : o.raises
          · exact absurd hor hcon
          · rfl
        simp [attemptRes, this] at hres
      simp [attemptGood, hr, hsrc, hv]
    · rw [hres] at h
      simp [AttemptRes.isSuccess] at h
    · rw [hres] at h
      simp [AttemptRes.isSuccess] at h

theorem extractGo_attempts (env : Nat → AttemptObs) (qenv : QrBackends)
    (remaining : Nat) :
    ∀ idx att w,
      (extractGo env qenv remaining idx att w).attempts ≤ att + remaining := by
  induction remaining with
  | zero => intro idx att w; simp [extractGo]
  | succ r ih =>
    intro idx att w
    rcases h : attemptRes qenv (env idx) with ⟨s, a⟩ | m | _ <;>
      simp only [extractGo, h]
    · show att + 1 ≤ att + (r + 1)
      omega
    · by_cases hrem : r > 0
      · rw [if_pos hrem]
        have := ih (idx + 1) (att + 1) (w + QR_POLL_INTERVAL_MS)
        omega
      · rw [if_neg hrem]
        show att + 1 ≤ att + (r + 1)
        omega
    · by_cases hrem : r > 0
      · rw [if_pos hrem]
        have := ih (idx + 1) (att + 1) (w + QR_POLL_INTERVAL_MS)
        omega
      · rw [if_neg hrem]
        show att + 1 ≤ att + (r + 1)
        omega

theorem extractGo_waits (env : Nat → AttemptObs) (qenv : QrBackends)
    (remaining : Nat) :
    ∀ idx att w,
      (extractGo env qenv remaining idx att w).waitMs ≤
        w + (remaining - 1) * QR_POLL_INTERVAL_MS := by
  induction remaining with
  | zero => intro idx att w; simp [extractGo]
  | succ r ih =>
    intro idx att w
    rcases h : attemptRes qenv (env idx) with ⟨s, a⟩ | m | _ <;>
      simp only [extractGo, h]
    · show w ≤ w + (r + 1 - 1) * QR_POLL_INTERVAL_MS
      omega
    · by_cases hrem : r > 0
      · rw [if_pos hrem]
        have := ih (idx + 1) (att + 1) (w + QR_POLL_INTERVAL_MS)
        simp only [QR_POLL_INTERVAL_MS] at this ⊢
        omega
      · rw [if_neg hrem]
        show w ≤ w + (r + 1 - 1) * QR_POLL_INTERVAL_MS
        omega
    · by_cases hrem : r > 0
      · rw [if_pos hrem]
        have := ih (idx + 1) (att + 1) (w + QR_POLL_INTERVAL_MS)
        simp only [QR_POLL_INTERVAL_MS] at this ⊢
        omega
      · rw [if_neg hrem]
        show w ≤ w + (r + 1 - 1) * QR_POLL_INTERVAL_MS
        omega

theorem extractGo_success_iff (env : Nat → AttemptObs) (qenv : QrBackends)
    (remaining : Nat) :
    ∀ idx att w,
      (extractGo env qenv remaining idx att w).success = true ↔
        ∃ j, j < remaining ∧
          (attemptRes qenv (env (idx + j))).isSuccess = true := by
  induction remaining with
  | zero =>
    intro idx att w
    simp [extractGo]
  | succ r ih =>
    intro idx att w
    rcases h : attemptRes qenv (env idx) with ⟨s, a⟩ | m | _ <;>
      simp only [extractGo, h]
    · constructor
      · intro _
        exact ⟨0, by omega, by simp [h, AttemptRes.isSuccess]⟩
      · intro _
        trivial
    · by_cases hrem : r > 0
      · rw [if_pos hrem, ih (idx + 1) (att + 1) (w + QR_POLL_INTERVAL_MS)]
        constructor
        · rintro ⟨j, hj, hs⟩
          refine ⟨j + 1, by omega, ?_⟩
          have : idx + 1 + j = idx + (j + 1) := by omega
          rwa [this] at hs
        · rintro ⟨j, hj, hs⟩
          cases j with
          | zero =>
            rw [Nat.add_zero] at hs
            rw [h] at hs
            simp [AttemptRes.isSuccess] at hs
          | succ j' =>
            refine ⟨j', by omega, ?_⟩
            have : idx + (j' + 1) = idx + 1 + j' := by omega
            rwa [this] at hs
      · rw [if_neg hrem]
        have hr0 : r = 0 := by omega
        subst hr0
        constructor
        · intro hfalse
          simp at hfalse
        · rintro ⟨j, hj, hs⟩
          have hj0 : j = 0 := by omega
          subst hj0
          rw [Nat.add_zero, h] at hs
          simp [AttemptRes.isSuccess] at hs
    · by_cases hrem : r > 0
      · rw [if_pos hrem, ih (idx + 1) (att + 1) (w + QR_POLL_INTERVAL_MS)]
        constructor
        · rintro ⟨j, hj, hs⟩
          refine ⟨j + 1, by omega, ?_⟩
          have : idx + 1 + j = idx + (j + 1) := by omega
          rwa [this] at hs
        · rintro ⟨j, hj, hs⟩
          cases j with
          | zero =>
            rw [Nat.add_zero] at hs
            rw [h] at hs
            simp [AttemptRes.isSuccess] at hs
          | succ j' =>
            refine ⟨j', by omega, ?_⟩
            have : idx + (j' + 1) = idx + 1 + j' := by omega
            rwa [this] at hs
      · rw [if_neg hrem]
        have hr0 : r = 0 := by omega
        subst hr0
        constructor
        · intro hfalse
          simp at hfalse
        · rintro ⟨j, hj, hs⟩
          have hj0 : j = 0 := by omega
          subst hj0
          rw [Nat.add_zero, h] at hs
          simp [AttemptRes.isSuccess] at hs

theorem extractGo_base64_valid (env : Nat → AttemptObs) (qenv : QrBackends)
    (remaining : Nat) :
    ∀ idx att w,
      (extractGo env qenv remaining idx att w).success = false ∨
        validSrc (extractGo env qenv remaining idx att w).base64 = true := by
  induction remaining with
  | zero => intro idx att w; exact Or.inl rfl
  | succ r ih =>
    intro idx att w
    rcases h : attemptRes qenv (env idx) with ⟨s, a⟩ | m | _ <;>
      simp only [extractGo, h]
    · exact Or.inr (attemptRes_success_valid h).2
    · by_cases hrem : r > 0
      · rw [if_pos hrem]
        exact ih (idx + 1) (att + 1) (w + QR_POLL_INTERVAL_MS)
      · rw [if_neg hrem]
        exact Or.inl rfl
    · by_cases hrem : r > 0
      · rw [if_pos hrem]
        exact ih (idx + 1) (att + 1) (w + QR_POLL_INTERVAL_MS)
      · rw [if_neg hrem]
        exact Or.inl rfl


theorem validSrc_spec {s : String} (h : validSrc s = true) :
    pyStartsWith s "data:image" = true ∧ pyLen s > 2000 := by
  simp only [validSrc, Bool.and_eq_true, decide_eq_true_eq] at h
  exact ⟨h.1.2, h.2⟩

/-- C9: `extract_from_page` makes at most `QR_MAX_ATTEMPTS` (30) attempts
with at most 29 inter-attempt waits of `QR_POLL_INTERVAL_MS` (500 ms)
between them; it succeeds exactly when some attempt within the budget
observes a truthy `src` passing validation, in which case the returned
`base64` is a `data:image` URI strictly longer than 2000 characters; and
when no attempt passes, it returns with `success = false` rather than
raising. -/
theorem extract_from_page_attempt_budget :
    ∀ (env : Nat → AttemptObs) (qenv : QrBackends),
      (extract_from_page env qenv).attempts ≤ QR_MAX_ATTEMPTS
      ∧ (extract_from_page env qenv).waitMs ≤
          (QR_MAX_ATTEMPTS - 1) * QR_POLL_INTERVAL_MS
      ∧ ((extract_from_page env qenv).success = true ↔
          ∃ j, j < QR_MAX_ATTEMPTS ∧ attemptGood (env j) = true)
      ∧ ((extract_from_page env qenv).success = false
         ∨ (pyStartsWith (extract_from_page env qenv).base64 "data:image" = true
            ∧ pyLen (extract_from_page env qenv).base64 > 2000)) := by
  intro env qenv
  refine ⟨?_, ?_, ?_, ?_⟩
  · simpa using extractGo_attempts env qenv QR_MAX_ATTEMPTS 0 0 0
  · simpa using extractGo_waits env qenv QR_MAX_ATTEMPTS 0 0 0
  · rw [extract_from_page, extractGo_success_iff env qenv QR_MAX_ATTEMPTS 0 0 0]
    constructor
    · rintro ⟨j, hj, hs⟩
      refine ⟨j, hj, ?_⟩
      rw [attemptGood_iff_success qenv]
      simpa using hs
    · rintro ⟨j, hj, hg⟩
      refine ⟨j, hj, ?_⟩
      rw [attemptGood_iff_success qenv] at hg
      simpa using hg
  · rcases extractGo_base64_valid env qenv QR_MAX_ATTEMPTS 0 0 0 with h | h
    · exact Or.inl h
    · exact Or.inr (validSrc_spec h)

/-- A `data:image` URI longer than 2000 characters, built structurally so
its length is provable without deep kernel recursion. -/
def c9WitnessSrc : String :=
  "data:image" ++ (List.replicate 2000 'A').asString

/-- A concrete observation environment whose first attempt already shows a
sufficiently long `data:image` URI. -/
def c9WitnessEnv : Nat → AttemptObs :=
  fun _ => { raises := false, exnMsg := "", src := some c9WitnessSrc }

/-- A backend configuration with no decode engines present. -/
def c9WitnessBackends : QrBackends :=
  { hasPyzbar := false, hasQrcode := false,
    b64decode := fun _ => .error "no backend",
    imgOpen := fun _ => .error "no backend",
    zbarDecode := fun _ => .error "no backend",
    utf8decode := fun _ => .error "no backend",
    qrMatrix := fun _ => .error "no backend" }

theorem c9WitnessSrc_len : pyLen c9WitnessSrc = 2010 := by
  rw [pyLen, c9WitnessSrc, strToList_append, List.toList_asString,
    List.length_append, List.length_replicate]
  rfl

theorem c9WitnessSrc_starts :
    pyStartsWith c9WitnessSrc "data:image" = true := by
  rw [pyStartsWith, c9WitnessSrc, strToList_append,
    List.isPrefixOf_iff_prefix]
  exact List.prefix_append _ _

theorem c9WitnessSrc_ne : ¬ (c9WitnessSrc = "") := by
  intro h
  have := congrArg pyLen h
  rw [c9WitnessSrc_len] at this
  simp [pyLen] at this

theorem c9Witness_good : attemptGood (c9WitnessEnv 0) = true := by
  have : validSrc c9WitnessSrc = true := by
    rw [validSrc, c9WitnessSrc_len, c9WitnessSrc_starts]
    simp [c9WitnessSrc_ne]
  simp [attemptGood, c9WitnessEnv, this]

/-- Witness for C9: on that environment extraction succeeds, via the
budget theorem's success characterisation. -/
theorem extract_from_page_attempt_budget_witness :
    (extract_from_page c9WitnessEnv c9WitnessBackends).success = true :=
  (extract_from_page_attempt_budget c9WitnessEnv c9WitnessBackends).2.2.1.mpr
    ⟨0, by decide, c9Witness_good⟩

/-! ## C6: the login completion detector's timeout behaviour -/

theorem pollLoop_no_signal (env : Nat → PollObs) (initws : Option String)
    (remaining : Nat) :
    ∀ idx w,
      (∀ j, j < remaining → (env (idx + j)).pageClosed = false ∧
        tickConfirms initws (env (idx + j)) = false) →
      pollLoop env initws remaining idx w =
        { success := false, cookies := [], status := "waiting",
          elapsedMs := w + remaining * POLL_INTERVAL_MS } := by
  induction remaining with
  | zero =>
    intro idx w _
    rw [show w + 0 * POLL_INTERVAL_MS = w by omega]
    rfl
  | succ r ih =>
    intro idx w h
    have h0 := h 0 (by omega)
    rw [Nat.add_zero] at h0
    rw [pollLoop]
    simp only [h0.1, h0.2, Bool.false_eq_true, if_false]
    have hrec := ih (idx + 1) (w + POLL_INTERVAL_MS) (fun j hj => by
      have := h (j + 1) (by omega)
      rwa [show idx + (j + 1) = idx + 1 + j by omega] at this)
    rw [hrec]
    congr 1
    simp only [POLL_INTERVAL_MS]
    omega

/-- Counterexample to C6 as stated: with no completion signal ever firing
and a 4-second timeout, `wait_for_login_complete` does return
`success = false`, but its `status` field is the initial `"waiting"` — the
code produces no distinct timed-out status at all. -/
theorem login_timeout_status_counterexample :
    (wait_for_login_complete
      (fun _ =>
        { pageClosed := false, url := "https://www.xiaohongshu.com/explore",
          avatarRaises := false, avatarCount := 0, avatarVisible := false,
          cookies := [] })
      [] [] 4).success = false
    ∧ (wait_for_login_complete
        (fun _ =>
          { pageClosed := false, url := "https://www.xiaohongshu.com/explore",
            avatarRaises := false, avatarCount := 0, avatarVisible := false,
            cookies := [] })
        [] [] 4).status = "waiting"
    ∧ ¬ ((wait_for_login_complete
          (fun _ =>
            { pageClosed := false, url := "https://www.xiaohongshu.com/explore",
              avatarRaises := false, avatarCount := 0, avatarVisible := false,
              cookies := [] })
          [] [] 4).status = "timed_out") := by
  refine ⟨?_, ?_, ?_⟩ <;> decide

/-- C6 (amended): if no completion signal (post-login URL match, avatar
marker, tracked `web_session` cookie change) fires in any of the
`max_polls` ticks and the page never closes, `wait_for_login_complete`
returns `success = false` with the status field left at its initial
`"waiting"` value (there is no distinct TimedOut marker), and it blocks for
at most `timeout` seconds — within the claimed `timeout` plus one poll
interval. -/
theorem wait_for_login_timeout_behaviour :
    ∀ (env : Nat → PollObs) (ic fc : List (String × String)) (timeout : Nat),
      (∀ j, j < maxPolls timeout → (env j).pageClosed = false ∧
        tickConfirms (webSessionOf ic) (env j) = false) →
      (wait_for_login_complete env ic fc timeout).success = false
      ∧ (wait_for_login_complete env ic fc timeout).status = "waiting"
      ∧ (wait_for_login_complete env ic fc timeout).elapsedMs ≤ timeout * 1000
      ∧ (wait_for_login_complete env ic fc timeout).elapsedMs ≤
          timeout * 1000 + POLL_INTERVAL_MS := by
  intro env ic fc timeout h
  have hloop := pollLoop_no_signal env (webSessionOf ic) (maxPolls timeout) 0 0
    (fun j hj => by simpa using h j hj)
  have hres : wait_for_login_complete env ic fc timeout =
      { success := false, cookies := [], status := "waiting",
        elapsedMs := 0 + maxPolls timeout * POLL_INTERVAL_MS } := by
    rw [wait_for_login_complete, hloop]
    simp
  rw [hres]
  refine ⟨rfl, rfl, ?_, ?_⟩ <;>
    simp only [Nat.zero_add] <;>
    have hdiv : maxPolls timeout * POLL_INTERVAL_MS ≤ timeout * 1000 := by
      rw [maxPolls]
      exact Nat.div_mul_le_self (timeout * 1000) POLL_INTERVAL_MS
  · exact hdiv
  · omega

/-- Witness for the amended C6: the concrete no-signal environment of the
counterexample, pushed through the timeout-behaviour theorem. -/
theorem wait_for_login_timeout_behaviour_witness :
    (wait_for_login_complete
      (fun _ =>
        { pageClosed := false, url := "https://www.xiaohongshu.com/explore",
          avatarRaises := false, avatarCount := 0, avatarVisible := false,
          cookies := [] })
      [] [] 4).success = false
    ∧ (wait_for_login_complete
        (fun _ =>
          { pageClosed := false, url := "https://www.xiaohongshu.com/explore",
            avatarRaises := false, avatarCount := 0, avatarVisible := false,
            cookies := [] })
        [] [] 4).elapsedMs ≤ 4 * 1000 + POLL_INTERVAL_MS :=
  have h := wait_for_login_timeout_behaviour
    (fun _ =>
      { pageClosed := false, url := "https://www.xiaohongshu.com/explore",
        avatarRaises := false, avatarCount := 0, avatarVisible := false,
        cookies := [] })
    [] [] 4 (fun _ _ => ⟨rfl, rfl⟩)
  ⟨h.1, h.2.2.2⟩

/-! ## C5: the channel traversal driver registers no response listener -/

/-- C5: every channel entry produced by `traverse_feed_channels` contains
no `expectResponse` registration anywhere in its interaction trace, and its
"captured" flag equals the tab's visibility alone — the function receives
no network-response information, so it can neither wait for nor condition
on a matching categorized feed response, contrary to its own docstring
("WAIT for specific API response (200 OK + Correct Category)") and
config.py's CHANNEL_MAP comment. -/
theorem traverse_channels_no_listener :
    ∀ (visible : String → Bool) (delays : String → Nat),
      ∀ e ∈ traverse_feed_channels visible delays,
        (∀ p, BrowserOp.expectResponse p ∉ e.2.1) ∧ e.2.2 = visible e.1 := by
  intro visible delays e he
  rw [traverse_feed_channels] at he
  obtain ⟨ch, hch, heq⟩ := List.mem_filterMap.mp he
  rcases hget : dictGet CHANNEL_MAP ch with _ | cat
  · rw [hget] at heq
    simp at heq
  · rw [hget] at heq
    by_cases hv : visible ch
    · rw [if_pos hv] at heq
      simp only [Option.some.injEq] at heq
      subst heq
      refine ⟨fun p hp => ?_, by simp [hv]⟩
      simp [channelVisitOps] at hp
    · rw [if_neg hv] at heq
      simp only [Option.some.injEq] at heq
      subst heq
      refine ⟨fun p hp => by simp at hp, ?_⟩
      simp only []
      cases hvis : visible ch
      · rfl
      · exact absurd (by simp [hvis]) hv

/-- Witness for C5: the first channel's entry under an all-visible page,
with one concrete predicate shown absent from its trace. -/
theorem traverse_channels_no_listener_witness :
    (("推荐", channelVisitOps "推荐" 1500, true) ∈
      traverse_feed_channels (fun _ => true) (fun _ => 1500))
    ∧ BrowserOp.expectResponse "/api/sns/web/v1/homefeed" ∉
        channelVisitOps "推荐" 1500 :=
  ⟨by decide,
   (traverse_channels_no_listener (fun _ => true) (fun _ => 1500)
     ("推荐", channelVisitOps "推荐" 1500, true) (by decide)).1
     "/api/sns/web/v1/homefeed"⟩
